import Mathlib

/-!
# Verification of the nuvia-backend XP pipeline

Shallow embedding of the core of the `nuvia-backend` repository:
the XP ledger (`src/models/XPLedger.js`), rule validation and per-rule
checks (`src/models/XPRule.js`), the event-to-XP pipeline
(`src/services/xp.service.js` / `src/services/web3.service.js`),
the contract registry (`src/utils/contractRegistry.js`) and the referral
state machine (`src/models/Referral.js`).

Conventions of the embedding:
* Mongoose documents become Lean structures; collections become lists in
  a `SysState` record; the cached `totalXP` projection on users becomes a
  function `Nat → Option Int` (a user id either resolves to a balance or
  the user does not exist).
* `async` functions that `throw` become functions returning
  `SysState × Except String α`: the state component records exactly the
  mutations committed before a throw, so partial effects on error paths
  are visible.
* JavaScript truthiness tests that guard the source's checks
  (`if (rule.minAmount && eventMetadata.amount)`, `metadata.chainId`, …)
  are modelled explicitly: `0`, `null`/absent and `""` are falsy.
* `parseFloat` on decimal strings is modelled as exact decimal parsing
  followed by rounding to the nearest IEEE-754 binary64 value
  (round-to-nearest, ties-to-even), expressed over exact nonnegative
  rationals represented as pairs of naturals.
* Times are integer epoch milliseconds.
-/

namespace Nuvia

/-! ## JavaScript primitives -/

/-- Truthiness of a JavaScript number held in an `Option`: absent (`null` /
`undefined`) and `0` are falsy. -/
def numTruthy (o : Option Int) : Bool :=
  match o with
  | none => false
  | some n => n != 0

/-- Truthiness of a JavaScript string held in an `Option`: absent and the
empty string are falsy. -/
def strTruthy (o : Option String) : Bool :=
  match o with
  | none => false
  | some s => s != ""

/-- Does `l` start with `p`? (helper for the substring test). -/
def startsList : List Char → List Char → Bool
  | _, [] => true
  | [], _ :: _ => false
  | a :: as, b :: bs => a == b && startsList as bs

/-- Does `hay` contain `needle` as a contiguous sublist? -/
def containsList (hay needle : List Char) : Bool :=
  match hay with
  | [] => needle.isEmpty
  | _ :: rest => startsList hay needle || containsList rest needle

/-- JavaScript `String.prototype.includes`. -/
def jsIncludes (s sub : String) : Bool :=
  containsList s.toList sub.toList

/-! ## `parseFloat` as exact decimal parsing + binary64 rounding

The source compares financial amounts with
`parseFloat(eventMetadata.amount) < parseFloat(rule.minAmount)`
(`src/models/XPRule.js`, `validateEvent`).  `parseFloat` yields an IEEE-754
binary64 value; we model it for canonical nonnegative decimal numerals in
the normal range as the nearest representable value `m / 2^(52-e)` with
`2^52 <= m < 2^53`, ties to even (denormals, overflow and `parseFloat`'s
tolerance for trailing garbage are outside the range of any value exercised
here; a non-numeral maps to `none`, the model of `NaN`).  Exact nonnegative
rationals are represented as numerator/denominator pairs of naturals so
that every operation is kernel-computable. -/

/-- An exact nonnegative rational `num / den` (`den` positive by
construction). -/
structure DecValue where
  num : Nat
  den : Nat
deriving Repr, DecidableEq

/-- Strict order on exact nonnegative rationals (cross multiplication). -/
def dvLt (a b : DecValue) : Bool :=
  a.num * b.den < b.num * a.den

/-- Parse a list of decimal digit characters into a natural number. -/
def digitsToNat? : List Char -> Option Nat
  | [] => none
  | cs => cs.foldl (fun acc c =>
      match acc with
      | none => none
      | some n => if c.isDigit then some (n * 10 + (c.toNat - 48)) else none)
      (some 0)

/-- Parse a canonical decimal numeral (`"10"`, `"9.99"`) into its exact
rational value. -/
def parseDecimal? (s : String) : Option DecValue :=
  let cs := s.toList
  let ip := cs.takeWhile (fun c => c != '.')
  match cs.dropWhile (fun c => c != '.') with
  | [] => (digitsToNat? ip).map (fun n => (⟨n, 1⟩ : DecValue))
  | _ :: fp =>
    if fp.any (fun c => c == '.') then none
    else
      match digitsToNat? ip, digitsToNat? fp with
      | some i, some f =>
        some (⟨i * 10 ^ fp.length + f, 10 ^ fp.length⟩ : DecValue)
      | _, _ => none

/-- Fuelled binary logarithm on naturals: greatest `e` with `2^e <= n`
for `n >= 1` (fuel-structural so that kernel reduction works). -/
def log2Fuel : Nat -> Nat -> Nat
  | 0, _ => 0
  | fuel + 1, n => if n < 2 then 0 else log2Fuel fuel (n / 2) + 1

/-- Fuelled search for the negative binary exponent: least `k >= 1` with
`den <= num * 2^k`, for `0 < num/den < 1`. -/
def negLog2Fuel : Nat -> Nat -> Nat -> Nat
  | 0, _, _ => 0
  | fuel + 1, num, den => if den <= num then 0 else negLog2Fuel fuel (2 * num) den + 1

/-- Floor of the binary logarithm of a positive rational: the `e` with
`2^e <= num/den < 2^(e+1)` (for the binade range binary64 can represent). -/
def floorLog2 (v : DecValue) : Int :=
  if v.den <= v.num then (log2Fuel 4200 (v.num / v.den) : Int)
  else -((negLog2Fuel 1200 v.num v.den : Int))

/-- Multiply an exact nonnegative rational by `2^k` (`k` possibly
negative). -/
def mulPow2 (v : DecValue) (k : Int) : DecValue :=
  if 0 <= k then (⟨v.num * 2 ^ k.toNat, v.den⟩ : DecValue)
  else (⟨v.num, v.den * 2 ^ (-k).toNat⟩ : DecValue)

/-- Round an exact nonnegative rational to the nearest natural, ties to
even (the IEEE-754 default rounding applied to the scaled significand). -/
def roundTiesEven (v : DecValue) : Nat :=
  let q := v.num / v.den
  let r := v.num % v.den
  if 2 * r < v.den then q
  else if v.den < 2 * r then q + 1
  else if q % 2 = 0 then q else q + 1

/-- Round a nonnegative rational to the nearest IEEE-754 binary64 value
(normal range): scale the binade `[2^e, 2^(e+1))` to `[2^52, 2^53)`,
round to an integer significand, and scale back. -/
def roundB64 (v : DecValue) : DecValue :=
  if v.num = 0 then (⟨0, 1⟩ : DecValue)
  else
    let e := floorLog2 v
    let m := roundTiesEven (mulPow2 v (52 - e))
    mulPow2 (⟨m, 1⟩ : DecValue) (e - 52)

/-- JavaScript `parseFloat` on a decimal string: `none` models `NaN`;
otherwise the exact decimal value rounded to the nearest binary64. -/
def jsParseFloat (s : String) : Option DecValue :=
  (parseDecimal? s).map roundB64

/-- Exact-decimal strict comparison of two amount strings, the
precision-safe comparison the specification prescribes (Modelled from the
spec: "decimal comparison, not floating-point -- amounts are financial and
must use a precision-safe numeric type"). `none` when either side is not a
decimal numeral. -/
def decimalLt (a b : String) : Option Bool :=
  match parseDecimal? a, parseDecimal? b with
  | some qa, some qb => some (dvLt qa qb)
  | _, _ => none

/-- Lowercase one ASCII character (JavaScript `toLowerCase` restricted to
the ASCII addresses the registry holds). -/
def lowerChar (c : Char) : Char :=
  if 'A' <= c && c <= 'Z' then Char.ofNat (c.toNat + 32) else c

/-- JavaScript `String.prototype.toLowerCase` on ASCII strings. -/
def jsToLower (s : String) : String :=
  String.mk (s.toList.map lowerChar)

/-! ## Rule store (`src/models/XPRule.js`) -/

/-- An XP rule document (`xpRuleSchema`).  `dailyLimit = none` models the
schema default `null`; `minAmount` is stored as a string, as in the schema
("Store as string to avoid precision issues"). -/
structure Rule where
  actionType : String
  xpAmount : Int
  dailyLimit : Option Int := none
  minAmount : Option String := none
  validChains : List Int := []
  validProtocols : List String := []
  cooldownMinutes : Int := 0
  isActive : Bool := true
deriving Repr, DecidableEq

/-- Event metadata as consumed by the pipeline.  Fields the source reads:
`txHash`, `chainId`, `tokenSymbol`, `amount`, `protocol`, `contractAddress`,
`eventType`.  Amounts are decimal strings (spec §6). -/
structure Metadata where
  txHash : Option String := none
  chainId : Option Int := none
  tokenSymbol : Option String := none
  amount : Option String := none
  protocol : Option String := none
  contractAddress : Option String := none
  eventType : Option String := none
deriving Repr, DecidableEq

/-- Result of `XPRule.validateEvent`: `{ valid, reason? }` plus the rule on
success. -/
structure ValidationResult where
  valid : Bool
  reason : Option String := none
  rule : Option Rule := none
deriving Repr, DecidableEq

/-- `XPRule.getRuleByAction`: `findOne({ actionType, isActive: true })`. -/
def getRuleByAction (rules : List Rule) (actionType : String) : Option Rule :=
  rules.find? (fun r => r.actionType == actionType && r.isActive)

/-- Minimum-amount check of `XPRule.validateEvent`: guarded by the JavaScript
truthiness of `rule.minAmount` and `eventMetadata.amount`, and performed with
`parseFloat` on both strings (an unparseable side yields `NaN`, whose `<`
comparison is false in JavaScript, so the event is not rejected). -/
def validateAmount (rule : Rule) (md : Metadata) : ValidationResult :=
  if strTruthy rule.minAmount && strTruthy md.amount then
    let minA := jsParseFloat (rule.minAmount.getD "")
    let evA := jsParseFloat (md.amount.getD "")
    let below :=
      match evA, minA with
      | some a, some m => dvLt a m
      | _, _ => false
    if below then
      { valid := false,
        reason := some ("Minimum amount is " ++ rule.minAmount.getD "") }
    else { valid := true, rule := some rule }
  else { valid := true, rule := some rule }

/-- Protocol allow-list check of `XPRule.validateEvent`, then the
minimum-amount check; the check only runs when the rule has protocols and
the metadata carries a truthy `protocol`. -/
def validateProtocolAndAmount (rule : Rule) (md : Metadata) : ValidationResult :=
  if rule.validProtocols.length > 0 && strTruthy md.protocol then
    if !(rule.validProtocols.contains (md.protocol.getD "")) then
      { valid := false, reason := some "Invalid protocol" }
    else validateAmount rule md
  else validateAmount rule md

/-- `XPRule.validateEvent` (src/models/XPRule.js): resolve the active rule,
then run the chain allow-list check (only when the rule has `validChains`
AND the metadata carries a truthy `chainId` — the source guard is
`if (rule.validChains.length > 0 && eventMetadata.chainId)`), then the
protocol and minimum-amount checks. -/
def validateEvent (rules : List Rule) (actionType : String) (md : Metadata) :
    ValidationResult :=
  match getRuleByAction rules actionType with
  | none => { valid := false, reason := some "No active rule found for this action" }
  | some rule =>
    if rule.validChains.length > 0 && numTruthy md.chainId then
      if !(rule.validChains.contains (md.chainId.getD 0)) then
        { valid := false, reason := some "Invalid chain ID" }
      else validateProtocolAndAmount rule md
    else validateProtocolAndAmount rule md

/-! ## Event collection rows and the per-rule checks
(`src/models/XPRule.js`: `canUserEarnXP`, `checkDailyLimit`) -/

/-- Status enum of the Event collection: `recorded`, `verified`,
`processed`, `failed`. -/
inductive EvStatus
  | recorded
  | verified
  | processed
  | failed
deriving Repr, DecidableEq

/-- A row of the Event collection, with the fields the in-scope code reads:
the queries in `canUserEarnXP` / `checkDailyLimit` filter on `userId`,
`type`, `status` and `occurredAt`, and `processEvent` records a
deduplication key. -/
structure EventRec where
  id : Nat
  userId : Nat
  type : String
  status : EvStatus
  occurredAt : Int
  dedupKey : Option String := none
  failReason : Option String := none
deriving Repr, DecidableEq

/-- Does this event row match the success-status query
`status: { $in: ['verified', 'processed'] }` for the given user and action? -/
def matchesSuccess (userId : Nat) (actionType : String) (e : EventRec) : Bool :=
  e.userId == userId && e.type == actionType &&
    (e.status == .verified || e.status == .processed)

/-- The document `findOne(...).sort({ occurredAt: -1 })` returns: a matching
row of maximal `occurredAt`. -/
def latestBy : List EventRec → Option EventRec
  | [] => none
  | e :: rest =>
    match latestBy rest with
    | none => some e
    | some m => if e.occurredAt ≥ m.occurredAt then some e else some m

/-- Result of `canUserEarnXP`. -/
structure CooldownResult where
  canEarn : Bool
  reason : Option String := none
  nextAvailableAt : Option Int := none
deriving Repr, DecidableEq

/-- `xpRuleSchema.methods.canUserEarnXP` (src/models/XPRule.js): no cooldown
when `cooldownMinutes === 0`; otherwise look for the most recent event of
this user and action with status `verified` or `processed` and
`occurredAt ≥ now - cooldownMs`; if found, reject with the remaining wait
and `nextAvailableAt = occurredAt + cooldownMs`. -/
def canUserEarnXP (rule : Rule) (events : List EventRec) (userId : Nat)
    (now : Int) : CooldownResult :=
  if rule.cooldownMinutes = 0 then { canEarn := true }
  else
    let cooldownMs := rule.cooldownMinutes * 60 * 1000
    let cutoff := now - cooldownMs
    let matching := events.filter
      (fun e => matchesSuccess userId rule.actionType e && cutoff ≤ e.occurredAt)
    match latestBy matching with
    | none => { canEarn := true }
    | some recent =>
      let remainingMs := cooldownMs - (now - recent.occurredAt)
      let remainingMinutes := -((-remainingMs) / 60000)
      { canEarn := false,
        reason := some ("Cooldown active. Try again in " ++
          toString remainingMinutes ++ " minutes."),
        nextAvailableAt := some (recent.occurredAt + cooldownMs) }

/-- Result of `checkDailyLimit`. -/
structure LimitResult where
  withinLimit : Bool
  reason : Option String := none
  currentCount : Option Int := none
  remaining : Option Int := none
deriving Repr, DecidableEq

/-- `xpRuleSchema.methods.checkDailyLimit` (src/models/XPRule.js): the guard
`if (!this.dailyLimit)` treats both `null` and `0` as "no limit"
(JavaScript falsiness); otherwise count this user's success-status events of
this action since local midnight (`dayStart`) and reject when the count has
reached the limit. -/
def checkDailyLimit (rule : Rule) (events : List EventRec) (userId : Nat)
    (dayStart : Int) : LimitResult :=
  if !(numTruthy rule.dailyLimit) then { withinLimit := true }
  else
    let limit := rule.dailyLimit.getD 0
    let todayCount : Int := ((events.filter
      (fun e => matchesSuccess userId rule.actionType e &&
        dayStart ≤ e.occurredAt)).length : Int)
    if todayCount ≥ limit then
      { withinLimit := false,
        reason := some ("Daily limit of " ++ toString limit ++ " reached"),
        currentCount := some todayCount }
    else
      { withinLimit := true, currentCount := some todayCount,
        remaining := some (limit - todayCount) }

/-! ## System state and the ledger append (`src/models/XPLedger.js`) -/

/-- One immutable XP ledger entry (`xpLedgerSchema`). -/
structure LedgerEntry where
  userId : Nat
  eventId : Option Nat := none
  deltaXP : Int
  balanceAfter : Int
  reason : String
  description : String := ""
deriving Repr, DecidableEq

/-- Status enum of the Referral collection. -/
inductive RefStatus
  | pending
  | verified
  | rewarded
  | rejected
deriving Repr, DecidableEq

/-- A row of the Referral collection (`src/models/Referral.js`), with the
fields `createReferral` / `distributeRewards` touch. -/
structure ReferralRec where
  id : Nat
  inviterUserId : Nat
  inviteeUserId : Nat
  referralCode : String
  status : RefStatus := .pending
  rewardInviterXP : Int := 0
  rewardInviteeXP : Int := 0
deriving Repr, DecidableEq

/-- The durable state the in-scope code reads and writes: the cached
`totalXP` projection on users (a user id resolves to a balance exactly when
the user exists), the append-only ledger, the Event collection and the
Referral collection. -/
structure SysState where
  users : Nat → Option Int
  entries : List LedgerEntry
  events : List EventRec
  referrals : List ReferralRec
  nextId : Nat

/-- Initial state: the given users exist with the schema default
`totalXP = 0` and every collection is empty. -/
def initState (userIds : List Nat) : SysState where
  users := fun u => if u ∈ userIds then some 0 else none
  entries := []
  events := []
  referrals := []
  nextId := 0

/-- Write the cached `totalXP` of one user
(`User.findByIdAndUpdate(userId, { totalXP: balanceAfter })`). -/
def setUserXP (s : SysState) (userId : Nat) (xp : Int) : SysState :=
  { s with users := fun u => if u = userId then some xp else s.users u }

/-- `xpLedgerSchema.statics.addXP` (src/models/XPLedger.js): read the user's
current `totalXP`, compute `balanceAfter`, reject a negative result, create
the ledger entry, then write the new `totalXP`.  `createFault` injects a
storage-layer rejection of the `this.create(...)` call (e.g. a unique-index
`E11000 duplicate key error` raised by the collection), which in the source
propagates out of `addXP` before any mutation has been committed. -/
def addXP (s : SysState) (userId : Nat) (deltaXP : Int) (reason : String)
    (description : String) (eventId : Option Nat)
    (createFault : Option String := none) :
    SysState × Except String LedgerEntry :=
  match s.users userId with
  | none => (s, .error "User not found")
  | some totalXP =>
    let balanceAfter := totalXP + deltaXP
    if balanceAfter < 0 then (s, .error "Insufficient XP balance")
    else
      match createFault with
      | some msg => (s, .error msg)
      | none =>
        let entry : LedgerEntry :=
          { userId := userId, eventId := eventId, deltaXP := deltaXP,
            balanceAfter := balanceAfter, reason := reason,
            description := description }
        (setUserXP { s with entries := s.entries ++ [entry] } userId balanceAfter,
          .ok entry)

/-! ## Interleaving model of concurrent `addXP` calls

`addXP` performs three separate awaited storage operations:
`User.findById` (read the balance), `this.create` (append the entry) and
`User.findByIdAndUpdate` (write the balance).  Under concurrent requests the
event loop may interleave these at every `await`; each micro-step below is
one storage operation.  No locking, transaction or atomic increment guards
the sequence in the source. -/

/-- Progress of one in-flight `addXP(userId, deltaXP, ...)` call. -/
inductive OpPhase
  | start
  | readDone (snapshot : Int)
  | created (bal : Int)
  | done (failed : Bool)
deriving Repr, DecidableEq

/-- Advance one in-flight `addXP userId deltaXP` call by one awaited storage
operation: read the balance, or check/append the entry, or write the
balance. -/
def opStep (uid : Nat) (delta : Int) (reason : String) (s : SysState) :
    OpPhase → SysState × OpPhase
  | .start =>
    match s.users uid with
    | none => (s, .done true)
    | some xp => (s, .readDone xp)
  | .readDone snapshot =>
    let bal := snapshot + delta
    if bal < 0 then (s, .done true)
    else
      ({ s with entries := s.entries ++
          [{ userId := uid, deltaXP := delta, balanceAfter := bal,
             reason := reason }] },
        .created bal)
  | .created bal => (setUserXP s uid bal, .done false)
  | .done f => (s, .done f)

/-- A system of `n` concurrent identical `addXP` calls: the shared store
plus each call's progress. -/
structure ConcSys where
  st : SysState
  ops : List OpPhase

/-- Let the scheduler run one micro-step of the `i`-th in-flight call. -/
def schedStep (uid : Nat) (delta : Int) (reason : String) (c : ConcSys)
    (i : Nat) : ConcSys :=
  let ph := c.ops.getD i (.done true)
  let (st, ph) := opStep uid delta reason c.st ph
  { st := st, ops := c.ops.set i ph }

/-- Run a schedule (a list of call indices, each advancing that call by one
storage operation). -/
def runSched (uid : Nat) (delta : Int) (reason : String) (c : ConcSys)
    (sched : List Nat) : ConcSys :=
  sched.foldl (schedStep uid delta reason) c

/-- Fifty concurrent `addXP(user 0, +1)` calls over user 0 starting at
balance 0. -/
def concInit50 : ConcSys :=
  { st := initState [0], ops := List.replicate 50 .start }

/-- The racy schedule: all fifty balance reads, then all fifty entry
creates, then all fifty balance writes — a legal interleaving of the three
awaited operations of each call. -/
def racySched50 : List Nat :=
  List.range 50 ++ List.range 50 ++ List.range 50

/-- The serialized schedule: each call runs its read, create and write to
completion before the next call starts. -/
def serialSched50 : List Nat :=
  (List.range 50).flatMap (fun i => [i, i, i])

/-! ## Contract registry (`src/utils/contractRegistry.js`) and on-chain
verification (`src/services/web3.service.js`, `src/services/xp.service.js`) -/

/-- The contract registry: named Nuvia contract addresses parsed from
`TESTNET_CONTRACTS` (keys such as `faucet`, `vaultUSDC`, `strategyUSDC`). -/
structure Registry where
  contracts : List (String × String)
deriving Repr, DecidableEq

/-- Look up a contract address by its key. -/
def Registry.lookup (reg : Registry) (key : String) : Option String :=
  (reg.contracts.find? (fun p => p.1 == key)).map (fun p => p.2)

/-- `ContractRegistry.isNuviaContract`: false for a missing address,
otherwise case-insensitive membership among the registry's values. -/
def isNuviaContract (reg : Registry) (address : Option String) : Bool :=
  match address with
  | none => false
  | some a =>
    if a == "" then false
    else (reg.contracts.map (fun p => jsToLower p.2)).contains (jsToLower a)

/-- `ContractRegistry.getExpectedContract`: resolve the expected destination
by event type and token symbol (`faucet` for `claim_faucet`, `vault<T>` for
`deposit`/`withdraw`, `strategy<T>` for `supply`). -/
def getExpectedContract (reg : Registry) (eventType : String) (md : Metadata) :
    Option String :=
  if eventType == "claim_faucet" then reg.lookup "faucet"
  else if eventType == "deposit" || eventType == "withdraw" then
    match md.tokenSymbol with
    | some t => reg.lookup ("vault" ++ t)
    | none => none
  else if eventType == "supply" then
    match md.tokenSymbol with
    | some t => reg.lookup ("strategy" ++ t)
    | none => none
  else none

/-- A transaction receipt as returned by the chain provider. -/
structure ChainReceipt where
  blockNumber : Nat
  sender : String
  toAddr : Option String
  gasUsed : Nat
  status : Nat
deriving Repr, DecidableEq

/-- Outcome of `web3Service.verifyTransaction` /
`xpService.verifyOnchainEvent`. -/
structure VerifyResult where
  verified : Bool
  reason : Option String := none
  receiptTo : Option String := none
deriving Repr, DecidableEq

/-- `web3Service.verifyTransaction` (src/services/web3.service.js): only
chain 84532 has a provider (`getProvider` throws otherwise, caught into a
failure); a missing receipt or `status !== 1` fails; when a truthy expected
contract is supplied the receipt's lowercased `to` must equal it.  The chain
is an external collaborator, passed as a lookup from transaction hash to
receipt. -/
def verifyTransaction (chain : String → Option ChainReceipt) (txHash : String)
    (chainId : Int) (expectedContract : Option String) : VerifyResult :=
  if chainId ≠ 84532 then
    { verified := false,
      reason := some ("No provider configured for chain ID: " ++ toString chainId) }
  else
    match chain txHash with
    | none => { verified := false, reason := some "Transaction not found or not confirmed" }
    | some receipt =>
      if receipt.status ≠ 1 then
        { verified := false, reason := some "Transaction failed" }
      else
        if strTruthy expectedContract then
          if (receipt.toAddr.map jsToLower) ≠
              some (jsToLower (expectedContract.getD "")) then
            { verified := false, reason := some "Transaction not sent to expected contract" }
          else { verified := true, receiptTo := receipt.toAddr }
        else { verified := true, receiptTo := receipt.toAddr }

/-- `XPService.verifyOnchainEvent` (src/services/xp.service.js): resolve the
expected contract (the caller-supplied `contractAddress`, else registry
auto-detection from `metadata.eventType || 'deposit'` when a token symbol is
present), call `verifyTransaction`, and — when it verified and the receipt
carries a truthy `to` — additionally require `to` to be a Nuvia contract. -/
def verifyOnchainEvent (reg : Registry) (chain : String → Option ChainReceipt)
    (md : Metadata) : VerifyResult :=
  let expectedContract :=
    if strTruthy md.contractAddress then md.contractAddress
    else if strTruthy md.tokenSymbol then
      getExpectedContract reg (md.eventType.getD "deposit") md
    else none
  let verification :=
    verifyTransaction chain (md.txHash.getD "") (md.chainId.getD 0) expectedContract
  if verification.verified && strTruthy verification.receiptTo then
    if !(isNuviaContract reg verification.receiptTo) then
      { verified := false, reason := some "Transaction not sent to a valid Nuvia contract" }
    else verification
  else verification

/-! ## Event recording and the XP award pipeline
(`src/services/xp.service.js`) -/

/-- Modelled from the spec: `Event.createEvent` lives in the Event model
(`src/models/Event.js`), which is not among the provided sources — only its
callers are.  Per the spec, the Event is recorded with its deduplication
key, the pair (user, dedup key) is unique, and the uniqueness is "enforced
at the storage layer (a uniqueness constraint)"; a violated unique index
surfaces as a Mongo `E11000 duplicate key error`, which is what
`processEvent`'s catch block recognizes by the substring `duplicate`.  A
rejected insert stores nothing.  `insertEvent` is the accepting branch. -/
def insertEvent (s : SysState) (userId : Nat) (eventType : String)
    (dedupKey : Option String) (now : Int) : SysState × Except String EventRec :=
  let ev : EventRec :=
    { id := s.nextId, userId := userId, type := eventType,
      status := .recorded, occurredAt := now, dedupKey := dedupKey }
  ({ s with events := s.events ++ [ev], nextId := s.nextId + 1 }, .ok ev)

/-- Modelled from the spec: duplicate detection of `Event.createEvent` — a
second insert with the same (user, dedup key) pair is rejected by the
storage-layer uniqueness constraint with a `duplicate key` error; a missing
dedup key imposes no constraint. -/
def createEvent (s : SysState) (userId : Nat) (eventType : String)
    (dedupKey : Option String) (now : Int) :
    SysState × Except String EventRec :=
  match dedupKey with
  | some k =>
    if s.events.any (fun e => e.userId == userId && e.dedupKey == some k) then
      (s, .error "E11000 duplicate key error")
    else insertEvent s userId eventType dedupKey now
  | none => insertEvent s userId eventType dedupKey now

/-- Modelled from the spec: the Event instance methods `markProcessed`,
`markVerified` and `markFailed(reason)` (Event model not among the provided
sources) set the status enum of the row, `markFailed` also recording the
reason. -/
def markEvent (s : SysState) (eventId : Nat) (st : EvStatus)
    (reason : Option String := none) : SysState :=
  { s with events := s.events.map (fun e =>
      if e.id == eventId then { e with status := st, failReason := reason } else e) }

/-- The result object `processEvent` resolves with. -/
structure ProcessResult where
  success : Bool
  xpAwarded : Int
  message : String
  nextAvailableAt : Option Int := none
deriving Repr, DecidableEq

/-- The external collaborators and configuration `processEvent` runs
against: the rule store, the contract registry, the chain (transaction hash
to receipt), the wall clock, plus injected storage faults — `ledgerFault`
makes the ledger `create` inside `addXP` reject with the given message, and
`questFault` makes the quest-progress storage operations inside the fan-out
reject (the Quest/QuestProgress models are not among the provided sources;
any storage call can reject with e.g. a unique-index violation). -/
structure Env where
  rules : List Rule
  registry : Registry
  chain : String → Option ChainReceipt
  now : Int
  dayStart : Int
  ledgerFault : Option String := none
  questFault : Option String := none

/-- `XPService.updateQuestProgress` (src/services/xp.service.js): advances
quest progress for matching quests, wrapped in `try/catch` whose handler
only logs — "Don't throw, quest progress update failure shouldn't block XP
award".  The quest-progress rows themselves live in models not among the
provided sources; what matters to the award pipeline, and what this
embedding keeps, is that a rejected storage operation inside the fan-out
(`questFault`) is swallowed and the state of the ledger is untouched. -/
def updateQuestProgress (env : Env) (s : SysState) : SysState :=
  match env.questFault with
  | some _ => s
  | none => s

/-- Tail of the `try` body of `processEvent`: the optional on-chain
verification (run only when the metadata carries a truthy `txHash` and
`chainId`; failure marks the event failed with the verifier's reason and
returns the failure result; success marks the event verified), then the
ledger append via `addXP`, the processed mark and the quest fan-out. -/
def processVerifyAndAward (env : Env) (s1 : SysState) (ev : EventRec)
    (rule : Rule) (userId : Nat) (eventType : String) (md : Metadata) :
    SysState × Except String ProcessResult :=
  let verifyStep : Except (SysState × String) SysState :=
    if strTruthy md.txHash && numTruthy md.chainId then
      let verification := verifyOnchainEvent env.registry env.chain md
      if !verification.verified then
        let msg := "Onchain verification failed: " ++ (verification.reason.getD "")
        .error (markEvent s1 ev.id .failed (some (verification.reason.getD "")), msg)
      else .ok (markEvent s1 ev.id .verified)
    else .ok s1
  match verifyStep with
  | .error (sFailed, msg) =>
    (sFailed, .ok { success := false, xpAwarded := 0, message := msg })
  | .ok s2 =>
    match addXP s2 userId rule.xpAmount eventType ("XP from " ++ eventType)
        (some ev.id) env.ledgerFault with
    | (s3, .error msg) => (s3, .error msg)
    | (s3, .ok _) =>
      let s4 := markEvent s3 ev.id .processed
      let s5 := updateQuestProgress env s4
      (s5, .ok { success := true, xpAwarded := rule.xpAmount,
                 message := "Successfully earned " ++ toString rule.xpAmount ++ " XP" })

/-- The `try` body of `XPService.processEvent` (src/services/xp.service.js):
record the event, resolve the rule (absence: mark processed, zero XP),
validate, check cooldown then daily limit (each failure marks the event
failed and returns the reason), verify on-chain when the metadata carries a
truthy `txHash` and `chainId` (failure marks the event failed; success marks
it verified), append the ledger entry via `addXP`, mark the event processed,
and fan out to quest progress. -/
def processEventBody (env : Env) (s : SysState) (userId : Nat)
    (eventType : String) (md : Metadata) (dedupKey : Option String) :
    SysState × Except String ProcessResult :=
  match createEvent s userId eventType dedupKey env.now with
  | (s, .error msg) => (s, .error msg)
  | (s1, .ok ev) =>
    match getRuleByAction env.rules eventType with
    | none =>
      (markEvent s1 ev.id .processed,
        .ok { success := true, xpAwarded := 0,
              message := "Event recorded but no XP rule configured" })
    | some rule =>
      let validation := validateEvent env.rules eventType md
      if !validation.valid then
        (markEvent s1 ev.id .failed validation.reason,
          .ok { success := false, xpAwarded := 0,
                message := (validation.reason.getD "") })
      else
        let cooldownCheck := canUserEarnXP rule s1.events userId env.now
        if !cooldownCheck.canEarn then
          (markEvent s1 ev.id .failed cooldownCheck.reason,
            .ok { success := false, xpAwarded := 0,
                  message := (cooldownCheck.reason.getD ""),
                  nextAvailableAt := cooldownCheck.nextAvailableAt })
        else
          let limitCheck := checkDailyLimit rule s1.events userId env.dayStart
          if !limitCheck.withinLimit then
            (markEvent s1 ev.id .failed limitCheck.reason,
              .ok { success := false, xpAwarded := 0,
                    message := (limitCheck.reason.getD "") })
          else
            processVerifyAndAward env s1 ev rule userId eventType md

/-- `XPService.processEvent` (src/services/xp.service.js): the `try` body
wrapped in the catch block, which classifies an error solely by
`error.message.includes('duplicate')` — a match is absorbed into the
distinguished duplicate outcome, anything else is rethrown. -/
def processEvent (env : Env) (s : SysState) (userId : Nat)
    (eventType : String) (md : Metadata) (dedupKey : Option String) :
    SysState × Except String ProcessResult :=
  match processEventBody env s userId eventType md dedupKey with
  | (s', .error msg) =>
    if jsIncludes msg "duplicate" then
      (s', .ok { success := false, xpAwarded := 0,
                 message := "Event already processed (duplicate)" })
    else (s', .error msg)
  | ok => ok

/-! ## Referral operations (`src/models/Referral.js`) -/

/-- `referralSchema.statics.createReferral`: a lookup for an existing
referral of this invitee throws `'User has already been referred'` (and the
unique index on `inviteeUserId` maps an `E11000` race to the same error);
otherwise the row is created with the schema default status `pending`. -/
def createReferral (s : SysState) (inviterUserId inviteeUserId : Nat)
    (referralCode : String) : SysState × Except String ReferralRec :=
  if s.referrals.any (fun r => r.inviteeUserId == inviteeUserId) then
    (s, .error "User has already been referred")
  else
    let row : ReferralRec :=
      { id := s.nextId, inviterUserId := inviterUserId,
        inviteeUserId := inviteeUserId, referralCode := referralCode }
    ({ s with referrals := s.referrals ++ [row], nextId := s.nextId + 1 },
      .ok row)

/-- Persist updated reward/status fields of one referral row
(the `this.… = …; await this.save()` tail of `distributeRewards`). -/
def saveReferral (s : SysState) (refId : Nat) (inviterXP inviteeXP : Int) :
    SysState :=
  { s with referrals := s.referrals.map (fun r =>
      if r.id == refId then
        { r with status := .rewarded, rewardInviterXP := inviterXP,
                 rewardInviteeXP := inviteeXP }
      else r) }

/-- `referralSchema.methods.distributeRewards` (src/models/Referral.js): the
guard throws unless the status is exactly `verified`; then `addXP` credits
the inviter, then the invitee, and the row is flipped to `rewarded` with the
distributed amounts and saved. -/
def distributeRewards (s : SysState) (refId : Nat)
    (inviterXP : Int := 500) (inviteeXP : Int := 100) :
    SysState × Except String Unit :=
  match s.referrals.find? (fun r => r.id == refId) with
  | none => (s, .error "Referral not found")
  | some r =>
    if r.status ≠ .verified then
      (s, .error "Referral must be verified before distributing rewards")
    else
      match addXP s r.inviterUserId inviterXP "referral_reward_inviter"
          "Referral reward for inviting user" none with
      | (s1, .error msg) => (s1, .error msg)
      | (s1, .ok _) =>
        match addXP s1 r.inviteeUserId inviteeXP "referral_reward_invitee"
            "Referral reward for joining" none with
        | (s2, .error msg) => (s2, .error msg)
        | (s2, .ok _) => (saveReferral s2 refId inviterXP inviteeXP, .ok ())

/-! ## The ledger-consistency invariant -/

/-- The ledger entries of one user, in creation order. -/
def userEntries (s : SysState) (u : Nat) : List LedgerEntry :=
  s.entries.filter (fun e => e.userId == u)

/-- Sum of the `deltaXP` values of a list of ledger entries. -/
def deltaSum : List LedgerEntry → Int
  | [] => 0
  | e :: rest => e.deltaXP + deltaSum rest

/-- Does every entry's `balanceAfter` equal the balance immediately before
it plus its `deltaXP`, starting from `bal`?  (The running-sum chain.) -/
def chainFrom (bal : Int) : List LedgerEntry → Bool
  | [] => true
  | e :: rest => (e.balanceAfter == bal + e.deltaXP) && chainFrom e.balanceAfter rest

/-- The ledger-consistency invariant (spec §8): every existing user's cached
`totalXP` equals the sum of that user's ledger deltas, and each of the
user's entries carries `balanceAfter` equal to the running sum up to and
including it. -/
def Consistent (s : SysState) : Prop :=
  ∀ u xp, s.users u = some xp →
    xp = deltaSum (userEntries s u) ∧ chainFrom 0 (userEntries s u) = true

/-- States reachable by completed operations.  Users are created with the
schema default `totalXP = 0` and an empty ledger; afterwards, every write to
`users`/`entries` anywhere in the sources goes through `addXP` (which is the
`addXPStep`), while the remaining storage operations (event recording and
marking, referral rows, quest progress) never touch the balance projection
or the ledger (the `auxStep`). -/
inductive Reachable : SysState → Prop
  | init (userIds : List Nat) : Reachable (initState userIds)
  | addXPStep {s s' : SysState} {u : Nat} {d : Int} {r ds : String}
      {ev : Option Nat} {f : Option String} {res : Except String LedgerEntry} :
      Reachable s → addXP s u d r ds ev f = (s', res) → Reachable s'
  | auxStep {s s' : SysState} :
      Reachable s → s'.users = s.users → s'.entries = s.entries → Reachable s'

/-! ## Basic lemmas about `addXP` -/

/-- An `addXP` call that throws has committed nothing: every error path of
the source (`User not found`, the negative-balance guard, a rejected
`create`) occurs before any write. -/
theorem addXP_error_eq {s s' : SysState} {u : Nat} {d : Int} {r ds : String}
    {ev : Option Nat} {f : Option String} {m : String}
    (h : addXP s u d r ds ev f = (s', .error m)) : s' = s := by
  unfold addXP at h
  split at h
  · exact (Prod.mk.injEq .. ▸ h).1.symm
  · dsimp only at h
    split at h
    · exact (Prod.mk.injEq .. ▸ h).1.symm
    · split at h
      · exact (Prod.mk.injEq .. ▸ h).1.symm
      · simp at h

/-- Characterization of a successful `addXP` call: the user existed with
some balance `xp`, the new balance is nonnegative, no fault was injected,
and the new state carries exactly one appended entry and the updated cached
balance. -/
theorem addXP_ok_spec {s s' : SysState} {u : Nat} {d : Int} {r ds : String}
    {ev : Option Nat} {f : Option String} {e : LedgerEntry}
    (h : addXP s u d r ds ev f = (s', .ok e)) :
    ∃ xp, s.users u = some xp ∧ ¬(xp + d < 0) ∧ f = none ∧
      e = { userId := u, eventId := ev, deltaXP := d, balanceAfter := xp + d,
            reason := r, description := ds } ∧
      s' = setUserXP { s with entries := s.entries ++ [e] } u (xp + d) := by
  unfold addXP at h
  split at h
  · simp at h
  case h_2 xp hu =>
    refine ⟨xp, hu, ?_⟩
    dsimp only at h
    split at h
    · simp at h
    case isFalse hb =>
      split at h
      · simp at h
      · refine ⟨hb, rfl, ?_⟩
        obtain ⟨h1, h2⟩ := Prod.mk.injEq .. ▸ h
        obtain rfl := (Except.ok.injEq .. ▸ h2)
        exact ⟨rfl, h1.symm⟩

/-! ## Concrete fixtures for witnesses and counterexamples -/

/-- The default `deposit` rule seeded by `XPService.seedDefaultRules`
(src/services/xp.service.js): `{ actionType: 'deposit', xpAmount: 100,
minAmount: '10', validChains: [84532] }`. -/
def depositRule : Rule :=
  { actionType := "deposit", xpAmount := 100, minAmount := some "10",
    validChains := [84532] }

/-! ## C1 — concurrent awards and lost updates -/

set_option maxRecDepth 40000

/-- C1.  The claim says that N ≥ 50 concurrent `addXP(deltaXP = 1)` calls
for one user leave the balance exactly N higher — that the
read/compute/append/write sequence of `addXP` behaves as a serialized
transaction.  The source sequence is three separate awaited storage
operations with no lock, transaction or atomic increment, so the scheduler
may run all fifty balance reads before any balance write: under that legal
interleaving the final cached balance is `1`, not `50` (forty-nine lost
updates; all fifty appended entries carry `balanceAfter = 1`), while the
fully serialized schedule of the same fifty calls does yield `50`. -/
theorem c1_concurrent_awards_lose_updates :
    (runSched 0 1 "deposit" concInit50 racySched50).st.users 0 = some 1 ∧
    (runSched 0 1 "deposit" concInit50 racySched50).st.entries.length = 50 ∧
    ((runSched 0 1 "deposit" concInit50 racySched50).st.entries.all
      (fun e => e.balanceAfter == 1)) = true ∧
    (runSched 0 1 "deposit" concInit50 serialSched50).st.users 0 = some 50 := by
  refine ⟨by decide, by decide, by decide, by decide⟩

/-! ## C3 — negative balance rejected without mutation -/

/-- C3.  For every state, user and delta, if the user's current balance
plus the delta is negative, `addXP` fails with the hard error
`'Insufficient XP balance'` and returns the state unchanged: no ledger
entry is created and the cached `totalXP` is untouched (the guard precedes
both writes in the source). -/
theorem c3_negative_balance_append_rejected (s : SysState) (u : Nat)
    (xp d : Int) (r ds : String) (ev : Option Nat) (f : Option String)
    (hu : s.users u = some xp) (hneg : xp + d < 0) :
    addXP s u d r ds ev f = (s, .error "Insufficient XP balance") := by
  unfold addXP
  rw [hu]
  simp [hneg]

/-- C3 witness: a concrete user at balance 0 and a delta of −5. -/
theorem c3_negative_balance_append_rejected_witness :
    (initState [0]).users 0 = some 0 ∧ (0 : Int) + (-5) < 0 ∧
    addXP (initState [0]) 0 (-5) "penalty" "" none none =
      (initState [0], .error "Insufficient XP balance") :=
  ⟨by decide, by decide,
    c3_negative_balance_append_rejected (initState [0]) 0 0 (-5) "penalty" ""
      none none (by decide) (by decide)⟩

/-! ## C5 — minimum-amount comparison is floating-point, not decimal -/

/-- C5.  The claim says the minimum-amount check uses exact decimal
(precision-safe) comparison and rejects exactly when the amount is below
the minimum.  The source compares `parseFloat(eventMetadata.amount) <
parseFloat(rule.minAmount)` (IEEE-754 binary64): for the seeded deposit
rule (`minAmount = "10"`) an amount of `"9.999999999999999999"` — strictly
below the minimum in exact decimal arithmetic, as `decimalLt` certifies —
rounds to the double `10.0`, the rejection test `10.0 < 10.0` is false, and
validation accepts the event.  This contradicts the schema's own intent
("Store as string to avoid precision issues"). -/
theorem c5_min_amount_float_comparison_bug :
    (validateEvent [depositRule] "deposit"
      { chainId := some 84532, amount := some "9.999999999999999999" }).valid
      = true ∧
    decimalLt "9.999999999999999999" "10" = some true := by
  refine ⟨by decide, by decide⟩

/-! ## C6 — chain allow-list check skipped for missing chain id -/

/-- C6 counterexample.  The claim says an event whose metadata carries no
chain id cannot pass validation under a rule with a non-empty chain
allow-list.  The source guard is
`if (rule.validChains.length > 0 && eventMetadata.chainId)`, so a missing
(or `0`) chain id skips the chain check entirely: against the seeded
deposit rule (`validChains = [84532]`) an event with no `chainId` and a
valid amount is accepted. -/
theorem c6_missing_chain_id_passes_validation :
    (validateEvent [depositRule] "deposit" { amount := some "15" }).valid
      = true := by decide

/-- C6 amended claim.  For every rule store, action type and metadata: if
the resolved active rule has a non-empty chain allow-list and the event's
metadata carries a truthy chain id (present and non-zero) that is not a
member of the allow-list, validation returns `valid = false`.  (The
amendment drops the original claim's "an event with no chain id cannot
pass": the source skips the chain check entirely for a missing — or `0` —
chain id, as `c6_missing_chain_id_passes_validation` shows.) -/
theorem c6_chain_allowlist_enforced (rules : List Rule) (ty : String)
    (md : Metadata) (r : Rule) (c : Int)
    (hr : getRuleByAction rules ty = some r)
    (hne : r.validChains ≠ [])
    (hc : md.chainId = some c) (hc0 : c ≠ 0)
    (hmem : c ∉ r.validChains) :
    (validateEvent rules ty md).valid = false := by
  unfold validateEvent
  rw [hr]
  have hlen : 0 < r.validChains.length := List.length_pos.mpr hne
  have hnt : numTruthy md.chainId = true := by
    rw [hc]; simpa [numTruthy] using hc0
  simp [hlen, hnt, hc, hmem]
  simp [numTruthy, hc0]

/-- C6 amended-claim witness: against the seeded deposit rule
(`validChains = [84532]`), chain id 1 is rejected. -/
theorem c6_chain_allowlist_enforced_witness :
    getRuleByAction [depositRule] "deposit" = some depositRule ∧
    depositRule.validChains ≠ [] ∧ (1 : Int) ≠ 0 ∧
    (1 : Int) ∉ depositRule.validChains ∧
    (validateEvent [depositRule] "deposit"
      { chainId := some 1, amount := some "15" }).valid = false :=
  ⟨by decide, by decide, by decide, by decide,
    c6_chain_allowlist_enforced [depositRule] "deposit"
      { chainId := some 1, amount := some "15" } depositRule 1
      (by decide) (by decide) rfl (by decide) (by decide)⟩

/-! ## C4 — duplicate (user, dedup key) submissions -/

/-- A minimal active rule fixture for the pipeline witnesses: no cooldown,
no daily limit, no on-chain requirements. -/
def simpleRule : Rule := { actionType := "select_strategy", xpAmount := 30 }

/-- Environment fixture for the pipeline witnesses. -/
def pipeEnv : Env :=
  { rules := [simpleRule], registry := ⟨[]⟩, chain := fun _ => none,
    now := 1000, dayStart := 0 }

/-- C4.  For every environment, state, user, action type, metadata and
dedup key: if an event with the same (user, dedup key) pair is already
recorded, `processEvent` returns the distinguished duplicate outcome
(`success = false`, `xpAwarded = 0`, the duplicate message) and the state
is returned completely unchanged — no new event row, no ledger entry, no
other side effect, so XP for the pair is awarded at most once (whatever the
first submission awarded).  The storage-layer uniqueness constraint is
modelled from the spec (`createEvent`); its `duplicate key` error is
absorbed by the catch block of `processEvent` in the source. -/
theorem c4_duplicate_submission_aborts (env : Env) (s : SysState) (u : Nat)
    (ty : String) (md : Metadata) (k : String)
    (hdup : ∃ e ∈ s.events, e.userId = u ∧ e.dedupKey = some k) :
    processEvent env s u ty md (some k) =
      (s, .ok { success := false, xpAwarded := 0,
                message := "Event already processed (duplicate)" }) := by
  have hany : (s.events.any (fun e => e.userId == u && e.dedupKey == some k)) = true := by
    obtain ⟨e, he, h1, h2⟩ := hdup
    rw [List.any_eq_true]
    exact ⟨e, he, by simp [h1, h2]⟩
  unfold processEvent processEventBody createEvent
  simp [hany]
  decide

/-- C4 witness: the state after a genuine first submission with key
`"key-1"` (which recorded the event and awarded XP), resubmitted with the
same key. -/
theorem c4_duplicate_submission_aborts_witness :
    (∃ e ∈ (processEvent pipeEnv (initState [0]) 0 "select_strategy" {}
        (some "key-1")).1.events, e.userId = 0 ∧ e.dedupKey = some "key-1") ∧
    processEvent pipeEnv
        (processEvent pipeEnv (initState [0]) 0 "select_strategy" {}
          (some "key-1")).1 0 "select_strategy" {} (some "key-1") =
      ((processEvent pipeEnv (initState [0]) 0 "select_strategy" {}
          (some "key-1")).1,
        .ok { success := false, xpAwarded := 0,
              message := "Event already processed (duplicate)" }) :=
  ⟨by decide,
    c4_duplicate_submission_aborts pipeEnv
      (processEvent pipeEnv (initState [0]) 0 "select_strategy" {}
        (some "key-1")).1 0 "select_strategy" {} "key-1" (by decide)⟩

/-! ## C10 — error classification in the catch block of `processEvent` -/

/-- Environment whose quest-progress fan-out storage rejects with a
unique-index violation whose message contains `duplicate`. -/
def questFaultEnv : Env :=
  { rules := [simpleRule], registry := ⟨[]⟩, chain := fun _ => none,
    now := 1000, dayStart := 0,
    questFault := some "E11000 duplicate key error collection: quest_progress" }

/-- C10 counterexample.  The claim says every error thrown anywhere inside
the pipeline whose message contains `duplicate` — "including … quest
fan-out" — makes `processEvent` return the duplicate outcome, and every
other error is rethrown.  But `updateQuestProgress` swallows all of its own
errors ("Don't throw, quest progress update failure shouldn't block XP
award"), so a `duplicate`-message unique-index violation raised during the
quest fan-out never reaches the catch block: `processEvent` returns the
normal success outcome with the XP awarded — neither the duplicate outcome
nor a rethrow. -/
theorem c10_quest_fanout_duplicate_error_not_classified :
    jsIncludes "E11000 duplicate key error collection: quest_progress"
      "duplicate" = true ∧
    (processEvent questFaultEnv (initState [0]) 0 "select_strategy" {} none).2 =
      .ok { success := true, xpAwarded := 30,
            message := "Successfully earned 30 XP" } := by
  refine ⟨by decide, by rfl⟩

/-- C10 amended claim.  The catch block classifies only errors that
actually propagate to it, solely by the substring test
`error.message.includes('duplicate')`: for a submission that reaches the
ledger append (active rule, validation, cooldown and daily limit all pass,
no on-chain leg), a storage error thrown by the append whose message
contains `duplicate` is absorbed into the duplicate outcome, any other
propagated error is rethrown to the caller, and with no propagated error
the award succeeds regardless of any error swallowed inside the quest
fan-out. -/
theorem c10_catch_classifies_propagated_errors (env : Env) (s : SysState)
    (u : Nat) (ty : String) (md : Metadata) (rule : Rule) (xp : Int)
    (hrule : getRuleByAction env.rules ty = some rule)
    (hval : (validateEvent env.rules ty md).valid = true)
    (hcd : (canUserEarnXP rule ((createEvent s u ty none env.now).1).events u
      env.now).canEarn = true)
    (hdl : (checkDailyLimit rule ((createEvent s u ty none env.now).1).events u
      env.dayStart).withinLimit = true)
    (htx : strTruthy md.txHash = false)
    (hu : s.users u = some xp) (hpos : ¬(xp + rule.xpAmount < 0)) :
    (∀ m, env.ledgerFault = some m → jsIncludes m "duplicate" = true →
      (processEvent env s u ty md none).2 =
        .ok { success := false, xpAwarded := 0,
              message := "Event already processed (duplicate)" }) ∧
    (∀ m, env.ledgerFault = some m → jsIncludes m "duplicate" = false →
      (processEvent env s u ty md none).2 = .error m) ∧
    (env.ledgerFault = none →
      (processEvent env s u ty md none).2 =
        .ok { success := true, xpAwarded := rule.xpAmount,
              message := "Successfully earned " ++ toString rule.xpAmount ++
                " XP" }) := by
  have hbody : processEventBody env s u ty md none =
      match addXP ((createEvent s u ty none env.now).1) u rule.xpAmount ty
          ("XP from " ++ ty) (some s.nextId) env.ledgerFault with
      | (s3, .error msg) => (s3, .error msg)
      | (s3, .ok _) =>
        (updateQuestProgress env (markEvent s3 s.nextId .processed),
          .ok { success := true, xpAwarded := rule.xpAmount,
                message := "Successfully earned " ++ toString rule.xpAmount ++
                  " XP" }) := by
    unfold processEventBody
    simp only [createEvent, insertEvent]
    rw [hrule]
    simp only [hval, Bool.not_true, Bool.false_eq_true, if_false]
    simp only [createEvent, insertEvent] at hcd hdl
    simp only [hcd, hdl, Bool.not_true, Bool.false_eq_true, if_false]
    unfold processVerifyAndAward
    simp only [htx, Bool.false_and, Bool.if_false_left]
    rfl
  have hu1 : ((createEvent s u ty none env.now).1).users u = some xp := hu
  constructor
  · intro m hm hinc
    unfold processEvent
    rw [hbody]
    unfold addXP
    rw [hu1]
    simp only [hpos, if_false, hm]
    simp [hinc]
  constructor
  · intro m hm hinc
    unfold processEvent
    rw [hbody]
    unfold addXP
    rw [hu1]
    simp only [hpos, if_false, hm]
    simp [hinc]
  · intro hm
    unfold processEvent
    rw [hbody]
    unfold addXP
    rw [hu1]
    simp only [hpos, if_false, hm]

/-- C10 amended-claim witness: a ledger-append fault whose message
contains `duplicate` is absorbed into the duplicate outcome, while the
fault-free run succeeds. -/
theorem c10_catch_classifies_propagated_errors_witness :
    (processEvent { pipeEnv with
        ledgerFault := some "E11000 duplicate key error index: xpledgers" }
      (initState [0]) 0 "select_strategy" {} none).2 =
      .ok { success := false, xpAwarded := 0,
            message := "Event already processed (duplicate)" } ∧
    (processEvent { pipeEnv with ledgerFault := some "socket closed" }
      (initState [0]) 0 "select_strategy" {} none).2 = .error "socket closed" ∧
    (processEvent pipeEnv (initState [0]) 0 "select_strategy" {} none).2 =
      .ok { success := true, xpAwarded := 30,
            message := "Successfully earned 30 XP" } :=
  ⟨(c10_catch_classifies_propagated_errors
      { pipeEnv with ledgerFault := some "E11000 duplicate key error index: xpledgers" }
      (initState [0]) 0 "select_strategy" {} simpleRule 0
      (by decide) (by decide) (by decide) (by decide) (by decide) (by decide)
      (by decide)).1
      "E11000 duplicate key error index: xpledgers" rfl (by decide),
    (c10_catch_classifies_propagated_errors
      { pipeEnv with ledgerFault := some "socket closed" }
      (initState [0]) 0 "select_strategy" {} simpleRule 0
      (by decide) (by decide) (by decide) (by decide) (by decide) (by decide)
      (by decide)).2.1
      "socket closed" rfl (by decide),
    (c10_catch_classifies_propagated_errors pipeEnv
      (initState [0]) 0 "select_strategy" {} simpleRule 0
      (by decide) (by decide) (by decide) (by decide) (by decide) (by decide)
      (by decide)).2.2 rfl⟩

/-! ## C2 — ledger consistency under completed operations -/

/-- The balance at the end of a chain of entries that starts at `b`:
the last entry's `balanceAfter`, or `b` itself for an empty chain. -/
def lastBal (b : Int) : List LedgerEntry → Int
  | [] => b
  | e :: rest => lastBal e.balanceAfter rest

theorem deltaSum_append (l : List LedgerEntry) (e : LedgerEntry) :
    deltaSum (l ++ [e]) = deltaSum l + e.deltaXP := by
  induction l with
  | nil => simp [deltaSum]
  | cons a as ih =>
    simp only [List.cons_append, deltaSum, List.append_eq, ih]
    omega

theorem chainFrom_append (b : Int) (l : List LedgerEntry) (e : LedgerEntry) :
    chainFrom b (l ++ [e]) =
      (chainFrom b l && (e.balanceAfter == lastBal b l + e.deltaXP)) := by
  induction l generalizing b with
  | nil => simp [chainFrom, lastBal]
  | cons a as ih =>
    show ((a.balanceAfter == b + a.deltaXP) &&
        chainFrom a.balanceAfter (as ++ [e])) = _
    rw [ih]
    show _ = ((a.balanceAfter == b + a.deltaXP) && chainFrom a.balanceAfter as
      && (e.balanceAfter == lastBal a.balanceAfter as + e.deltaXP))
    rw [Bool.and_assoc]

theorem lastBal_of_chain (b : Int) (l : List LedgerEntry)
    (h : chainFrom b l = true) : lastBal b l = b + deltaSum l := by
  induction l generalizing b with
  | nil => simp [lastBal, deltaSum]
  | cons a as ih =>
    simp only [chainFrom, Bool.and_eq_true, beq_iff_eq] at h
    obtain ⟨h1, h2⟩ := h
    show lastBal a.balanceAfter as = _
    rw [ih _ h2]
    simp only [deltaSum]
    omega

theorem userEntries_setUserXP (s : SysState) (u : Nat) (xp : Int) (v : Nat) :
    userEntries (setUserXP s u xp) v = userEntries s v := rfl

theorem userEntries_append (s : SysState) (e : LedgerEntry) (u : Nat) :
    userEntries { s with entries := s.entries ++ [e] } u =
      userEntries s u ++ (if e.userId == u then [e] else []) := by
  simp only [userEntries, List.filter_append]
  congr 1
  by_cases h : e.userId == u <;> simp [List.filter, h]

/-- C2.  In every state reachable by completed operations (users created at
`totalXP = 0`, every balance/ledger write going through `addXP`, all other
storage operations leaving both untouched), every existing user's cached
`totalXP` equals the sum of the `deltaXP` values of that user's ledger
entries, and each entry's `balanceAfter` equals the running sum of the
user's entries in creation order up to and including that entry. -/
theorem c2_ledger_consistency (s : SysState) (h : Reachable s) :
    Consistent s := by
  induction h with
  | init userIds =>
    intro u xp hu
    simp only [initState] at hu
    split at hu
    · cases hu
      simp [userEntries, initState, deltaSum, chainFrom]
    · exact absurd hu (by simp)
  | addXPStep hr heq ih =>
    rename_i s s' u d r ds ev f res
    cases res with
    | error m =>
      obtain rfl := addXP_error_eq heq
      exact ih
    | ok e =>
      obtain ⟨xp0, hu0, hpos, rfl, rfl, rfl⟩ := addXP_ok_spec heq
      intro v xv hv
      obtain ⟨hsum0, hchain0⟩ := ih u xp0 hu0
      rw [userEntries_setUserXP, userEntries_append]
      by_cases hvu : v = u
      · subst hvu
        simp only [setUserXP, if_pos rfl] at hv
        cases hv
        simp only [beq_self_eq_true, if_pos]
        rw [deltaSum_append, chainFrom_append]
        refine ⟨by show xp0 + d = deltaSum (userEntries s v) + d; omega, ?_⟩
        rw [hchain0, lastBal_of_chain 0 _ hchain0]
        simp [← hsum0]
      · simp only [setUserXP, if_neg hvu] at hv
        obtain ⟨hsum, hchain⟩ := ih v xv hv
        have hne : (u == v) = false := by
          simpa using fun h => hvu h.symm
        simp only [hne, Bool.false_eq_true, if_false, List.append_nil]
        exact ⟨hsum, hchain⟩
  | auxStep hr husers hentries ih =>
    rename_i s s'
    intro u xp hu
    rw [husers] at hu
    have hue : userEntries s' u = userEntries s u := by
      simp [userEntries, hentries]
    rw [hue]
    exact ih u xp hu

/-- C2 witness: the invariant holds in the concrete state reached from one
fresh user by one completed `addXP` of +5. -/
theorem c2_ledger_consistency_witness :
    Consistent ((addXP (initState [0]) 0 5 "deposit" "" none none).1) :=
  c2_ledger_consistency _
    (@Reachable.addXPStep (initState [0])
      ((addXP (initState [0]) 0 5 "deposit" "" none none).1)
      0 5 "deposit" "" none none
      ((addXP (initState [0]) 0 5 "deposit" "" none none).2)
      (Reachable.init [0]) rfl)

/-! ## C7 — cooldown enforcement -/

theorem latestBy_spec (a : EventRec) (l : List EventRec) :
    ∃ e, latestBy (a :: l) = some e ∧ e ∈ a :: l ∧
      ∀ x ∈ a :: l, x.occurredAt ≤ e.occurredAt := by
  induction l generalizing a with
  | nil =>
    refine ⟨a, rfl, List.mem_cons_self a [], ?_⟩
    intro x hx
    rw [List.mem_singleton] at hx
    subst hx
    exact le_refl _
  | cons b bs ih =>
    obtain ⟨m, hm, hmem, hmax⟩ := ih b
    have hunf : latestBy (a :: b :: bs) =
        (if a.occurredAt ≥ m.occurredAt then some a else some m) := by
      show (match latestBy (b :: bs) with
        | none => some a
        | some m => if a.occurredAt ≥ m.occurredAt then some a else some m) = _
      rw [hm]
    by_cases hge : a.occurredAt ≥ m.occurredAt
    · refine ⟨a, by rw [hunf, if_pos hge], List.mem_cons_self .., ?_⟩
      intro x hx
      rcases List.mem_cons.mp hx with rfl | hx2
      · exact le_refl _
      · exact le_trans (hmax x hx2) hge
    · refine ⟨m, by rw [hunf, if_neg hge], List.mem_cons_of_mem _ hmem, ?_⟩
      intro x hx
      rcases List.mem_cons.mp hx with rfl | hx2
      · exact le_of_not_le hge
      · exact hmax x hx2

theorem canUserEarnXP_reject (rule : Rule) (events : List EventRec) (u : Nat)
    (now : Int) (recent : EventRec)
    (h0 : ¬rule.cooldownMinutes = 0)
    (hlat : latestBy (events.filter (fun e =>
      matchesSuccess u rule.actionType e &&
      (now - rule.cooldownMinutes * 60 * 1000 ≤ e.occurredAt))) = some recent) :
    (canUserEarnXP rule events u now).canEarn = false ∧
    (canUserEarnXP rule events u now).nextAvailableAt =
      some (recent.occurredAt + rule.cooldownMinutes * 60 * 1000) := by
  unfold canUserEarnXP
  rw [if_neg h0]
  dsimp only
  rw [hlat]
  exact ⟨rfl, rfl⟩

theorem canUserEarnXP_allow (rule : Rule) (events : List EventRec) (u : Nat)
    (now : Int)
    (hnil : events.filter (fun e =>
      matchesSuccess u rule.actionType e &&
      (now - rule.cooldownMinutes * 60 * 1000 ≤ e.occurredAt)) = []) :
    (canUserEarnXP rule events u now).canEarn = true := by
  unfold canUserEarnXP
  split
  · rfl
  · dsimp only
    rw [hnil]
    rfl

/-- C7.  For every rule with `cooldownMinutes = 60` and any event history
in which the most recent success-status (`verified` or `processed`) event of
that user and action type occurred at time `T` — regardless of any `failed`
or `recorded` events, which the status filter of `canUserEarnXP` excludes —
a submission at `T + 30min` is rejected with
`nextAvailableAt = T + 60min` exactly, and a submission at `T + 61min`
passes the cooldown check. -/
theorem c7_cooldown_enforcement (rule : Rule) (events : List EventRec)
    (u : Nat) (T : Int)
    (hcd : rule.cooldownMinutes = 60)
    (hmem : ∃ e ∈ events, matchesSuccess u rule.actionType e = true ∧
      e.occurredAt = T)
    (hlast : ∀ e ∈ events, matchesSuccess u rule.actionType e = true →
      e.occurredAt ≤ T) :
    (canUserEarnXP rule events u (T + 30 * 60000)).canEarn = false ∧
    (canUserEarnXP rule events u (T + 30 * 60000)).nextAvailableAt =
      some (T + 60 * 60000) ∧
    (canUserEarnXP rule events u (T + 61 * 60000)).canEarn = true := by
  have h0 : ¬rule.cooldownMinutes = 0 := by rw [hcd]; decide
  obtain ⟨e0, he0, hms0, hT0⟩ := hmem
  have hfmem : e0 ∈ events.filter (fun e =>
      matchesSuccess u rule.actionType e &&
      ((T + 30 * 60000) - rule.cooldownMinutes * 60 * 1000 ≤ e.occurredAt)) := by
    refine List.mem_filter.mpr ⟨he0, ?_⟩
    rw [Bool.and_eq_true, hms0]
    refine ⟨rfl, decide_eq_true ?_⟩
    rw [hT0, hcd]
    omega
  cases hc : events.filter (fun e =>
      matchesSuccess u rule.actionType e &&
      ((T + 30 * 60000) - rule.cooldownMinutes * 60 * 1000 ≤ e.occurredAt)) with
  | nil => rw [hc] at hfmem; exact absurd hfmem (List.not_mem_nil e0)
  | cons a l =>
    obtain ⟨m, hm, hmemF, hmax⟩ := latestBy_spec a l
    have hmF : m ∈ events.filter (fun e =>
        matchesSuccess u rule.actionType e &&
        ((T + 30 * 60000) - rule.cooldownMinutes * 60 * 1000 ≤ e.occurredAt)) := by
      rw [hc]; exact hmemF
    obtain ⟨hmev, hmp⟩ := List.mem_filter.mp hmF
    have hmT : m.occurredAt = T := by
      rw [Bool.and_eq_true] at hmp
      refine le_antisymm (hlast m hmev hmp.1) ?_
      rw [← hT0]
      refine hmax e0 ?_
      rw [← hc]
      exact hfmem
    obtain ⟨hA1, hA2⟩ := canUserEarnXP_reject rule events u (T + 30 * 60000) m
      h0 (by rw [hc]; exact hm)
    refine ⟨hA1, ?_, ?_⟩
    · rw [hA2, hmT, hcd]
      norm_num
    · refine canUserEarnXP_allow rule events u (T + 61 * 60000) ?_
      rw [List.filter_eq_nil_iff]
      intro e he
      rw [Bool.not_eq_true, Bool.and_eq_false_iff]
      by_cases hmse : matchesSuccess u rule.actionType e = true
      · refine Or.inr ?_
        rw [decide_eq_false_iff_not]
        have := hlast e he hmse
        rw [hcd]
        omega
      · exact Or.inl (Bool.not_eq_true _ ▸ hmse)

/-- Cooldown rule fixture: the seeded `claim_faucet` shape with a 60-minute
cooldown. -/
def faucetRule : Rule :=
  { actionType := "claim_faucet", xpAmount := 25, cooldownMinutes := 60 }

/-- C7 witness: one processed `claim_faucet` event at `T = 0` and one
`failed` event 50 minutes later (which must not count); resubmission at
30 minutes is rejected with `nextAvailableAt = 3600000 ms = T + 60min`,
and resubmission at 61 minutes passes. -/
theorem c7_cooldown_enforcement_witness :
    (canUserEarnXP faucetRule
      [{ id := 0, userId := 0, type := "claim_faucet", status := .processed,
         occurredAt := 0 },
       { id := 1, userId := 0, type := "claim_faucet", status := .failed,
         occurredAt := 3000000 }] 0 (0 + 30 * 60000)).canEarn = false ∧
    (canUserEarnXP faucetRule
      [{ id := 0, userId := 0, type := "claim_faucet", status := .processed,
         occurredAt := 0 },
       { id := 1, userId := 0, type := "claim_faucet", status := .failed,
         occurredAt := 3000000 }] 0 (0 + 30 * 60000)).nextAvailableAt =
      some (0 + 60 * 60000) ∧
    (canUserEarnXP faucetRule
      [{ id := 0, userId := 0, type := "claim_faucet", status := .processed,
         occurredAt := 0 },
       { id := 1, userId := 0, type := "claim_faucet", status := .failed,
         occurredAt := 3000000 }] 0 (0 + 61 * 60000)).canEarn = true :=
  c7_cooldown_enforcement faucetRule
    [{ id := 0, userId := 0, type := "claim_faucet", status := .processed,
       occurredAt := 0 },
     { id := 1, userId := 0, type := "claim_faucet", status := .failed,
       occurredAt := 3000000 }] 0 0
    (by decide) (by decide) (by decide)

/-! ## C8 — wrong-destination transactions are rejected -/

/-- Status of the event row with the given id. -/
def eventStatus (s : SysState) (eid : Nat) : Option EvStatus :=
  (s.events.find? (fun e => e.id == eid)).map (fun e => e.status)

theorem find?_map_upd (l : List EventRec) (eid : Nat) (st : EvStatus)
    (rsn : Option String) :
    ((l.map (fun e =>
        if e.id == eid then { e with status := st, failReason := rsn } else e)).find?
      (fun e => e.id == eid)) =
    (l.find? (fun e => e.id == eid)).map
      (fun e => { e with status := st, failReason := rsn }) := by
  induction l with
  | nil => rfl
  | cons a as ih =>
    by_cases h : a.id = eid
    · have hb : (a.id == eid) = true := by simpa using h
      rw [List.map_cons, if_pos hb, List.find?_cons, List.find?_cons, hb]
      simp only [show (({ a with status := st, failReason := rsn } :
        EventRec).id == eid) = true from hb]
      rfl
    · have hb : (a.id == eid) = false := by simpa using h
      rw [List.map_cons, if_neg (by simp [hb]), List.find?_cons,
        List.find?_cons, hb]
      dsimp only
      exact ih

theorem markEvent_status (s : SysState) (eid : Nat) (st : EvStatus)
    (rsn : Option String)
    (hex : ∃ e ∈ s.events, e.id = eid) :
    eventStatus (markEvent s eid st rsn) eid = some st := by
  unfold eventStatus markEvent
  dsimp only
  rw [find?_map_upd]
  obtain ⟨e, he, hid⟩ := hex
  have hsome : (s.events.find? (fun e => e.id == eid)).isSome := by
    rw [List.find?_isSome]
    exact ⟨e, he, by simpa using hid⟩
  obtain ⟨e2, he2⟩ := Option.isSome_iff_exists.mp hsome
  rw [he2]
  rfl

/-- A `verifyTransaction` call that found the receipt either reports
failure or reports success carrying the receipt's destination address. -/
theorem verifyTransaction_receiptTo (chain : String -> Option ChainReceipt)
    (tx : String) (cid : Int) (ec : Option String) (receipt : ChainReceipt)
    (hrec : chain tx = some receipt) :
    (verifyTransaction chain tx cid ec).receiptTo = receipt.toAddr ∨
    (verifyTransaction chain tx cid ec).verified = false := by
  unfold verifyTransaction
  split
  · exact Or.inr rfl
  · rw [hrec]
    dsimp only
    split
    · exact Or.inr rfl
    · split
      · split
        · exact Or.inr rfl
        · exact Or.inl rfl
      · exact Or.inl rfl

/-- The additional Nuvia-contract check of `verifyOnchainEvent`: a verified
transaction whose receipt carries a nonempty destination address that is not
among the registry's contract addresses (case-insensitively) is rejected, on
every path — whether the expected contract was caller-supplied,
auto-detected, or absent. -/
theorem verifyOnchainEvent_wrong_dest (reg : Registry)
    (chain : String -> Option ChainReceipt) (md : Metadata)
    (receipt : ChainReceipt) (addr : String)
    (hrec : chain (md.txHash.getD "") = some receipt)
    (hst : receipt.status = 1)
    (hto : receipt.toAddr = some addr) (hne : addr ≠ "")
    (hnuv : ((reg.contracts.map (fun p => jsToLower p.2)).contains
      (jsToLower addr)) = false) :
    (verifyOnchainEvent reg chain md).verified = false := by
  unfold verifyOnchainEvent
  dsimp only
  rcases verifyTransaction_receiptTo chain (md.txHash.getD "")
      (md.chainId.getD 0)
      (if strTruthy md.contractAddress = true then md.contractAddress
       else
         if strTruthy md.tokenSymbol = true then
           getExpectedContract reg (md.eventType.getD "deposit") md
         else none)
      receipt hrec with hTo | hF
  · by_cases hv : (verifyTransaction chain (md.txHash.getD "")
        (md.chainId.getD 0)
        (if strTruthy md.contractAddress = true then md.contractAddress
         else
           if strTruthy md.tokenSymbol = true then
             getExpectedContract reg (md.eventType.getD "deposit") md
           else none)).verified = true
    · rw [hTo, hto]
      rw [hv]
      have hstr : strTruthy (some addr) = true := by
        simp [strTruthy, hne]
      rw [hstr]
      rw [if_pos (by simp)]
      have hnc : isNuviaContract reg (some addr) = false := by
        unfold isNuviaContract
        dsimp only
        rw [if_neg (by simpa using hne)]
        exact hnuv
      rw [hnc]
      rw [if_pos (by simp)]
    · rw [Bool.not_eq_true] at hv
      rw [hv]
      rw [if_neg (by simp)]
      exact hv
  · rw [hF]
    rw [if_neg (by simp)]
    exact hF

/-- C8.  For every environment, state, user and metadata carrying a truthy
transaction hash and chain id: if the chain's receipt for that transaction
shows on-chain success (`status = 1`) but a destination address that does
not belong (case-insensitively) to the registry's set of Nuvia contracts,
`verifyOnchainEvent` rejects it; and whenever the submission otherwise
proceeds past rule resolution, validation, cooldown and daily limit,
`processEvent` returns `success = false` with `xpAwarded = 0`, appends no
ledger entry and marks the event `failed`. -/
theorem c8_wrong_destination_rejected (env : Env) (s : SysState) (u : Nat)
    (ty : String) (md : Metadata) (rule : Rule) (receipt : ChainReceipt)
    (addr : String)
    (hrec : env.chain (md.txHash.getD "") = some receipt)
    (hst : receipt.status = 1)
    (hto : receipt.toAddr = some addr) (hne : addr ≠ "")
    (hnuv : ((env.registry.contracts.map (fun p => jsToLower p.2)).contains
      (jsToLower addr)) = false)
    (htx : strTruthy md.txHash = true) (hch : numTruthy md.chainId = true)
    (hrule : getRuleByAction env.rules ty = some rule)
    (hval : (validateEvent env.rules ty md).valid = true)
    (hcd : (canUserEarnXP rule ((createEvent s u ty none env.now).1).events u
      env.now).canEarn = true)
    (hdl : (checkDailyLimit rule ((createEvent s u ty none env.now).1).events u
      env.dayStart).withinLimit = true) :
    (verifyOnchainEvent env.registry env.chain md).verified = false ∧
    (processEvent env s u ty md none).2 =
      .ok { success := false, xpAwarded := 0,
            message := "Onchain verification failed: " ++
              ((verifyOnchainEvent env.registry env.chain md).reason.getD "") } ∧
    (processEvent env s u ty md none).1.entries = s.entries ∧
    eventStatus (processEvent env s u ty md none).1 s.nextId =
      some .failed := by
  have hva := verifyOnchainEvent_wrong_dest env.registry env.chain md receipt
    addr hrec hst hto hne hnuv
  have hbody : processEvent env s u ty md none =
      (markEvent ((createEvent s u ty none env.now).1) s.nextId .failed
        (some ((verifyOnchainEvent env.registry env.chain md).reason.getD "")),
       .ok { success := false, xpAwarded := 0,
             message := "Onchain verification failed: " ++
               ((verifyOnchainEvent env.registry env.chain md).reason.getD "") }) := by
    unfold processEvent processEventBody
    simp only [createEvent, insertEvent]
    rw [hrule]
    simp only [hval, Bool.not_true, Bool.false_eq_true, if_false]
    simp only [createEvent, insertEvent] at hcd hdl
    simp only [hcd, hdl, Bool.not_true, Bool.false_eq_true, if_false]
    unfold processVerifyAndAward
    simp only [htx, hch, Bool.and_self, if_true, hva, Bool.not_false, if_pos]
  rw [hbody]
  refine ⟨hva, rfl, rfl, ?_⟩
  refine markEvent_status _ _ _ _ ?_
  exact ⟨_, List.mem_append_right _ (List.mem_singleton.mpr rfl), rfl⟩

/-- Registry fixture for the C8 witness: one vault contract. -/
def c8Registry : Registry := ⟨[("vaultUSDC", "0xVAULT")]⟩

/-- Chain fixture for the C8 witness: one successful transaction whose
destination `0xevil` is not a registry contract. -/
def c8Chain : String → Option ChainReceipt := fun h =>
  if h = "0xtx" then
    some { blockNumber := 7, sender := "0xme", toAddr := some "0xevil",
           gasUsed := 21000, status := 1 }
  else none

/-- Metadata fixture for the C8 witness. -/
def c8Md : Metadata :=
  { txHash := some "0xtx", chainId := some 84532, tokenSymbol := some "USDC",
    amount := some "15" }

/-- Environment fixture for the C8 witness. -/
def c8Env : Env :=
  { rules := [depositRule], registry := c8Registry, chain := c8Chain,
    now := 1000, dayStart := 0 }

/-- C8 witness: the wrong-destination deposit above is rejected by
verification; `processEvent` returns failure with zero XP, leaves the
ledger empty and marks the recorded event `failed`. -/
theorem c8_wrong_destination_rejected_witness :
    (verifyOnchainEvent c8Env.registry c8Env.chain c8Md).verified = false ∧
    (processEvent c8Env (initState [0]) 0 "deposit" c8Md none).2 =
      .ok { success := false, xpAwarded := 0,
            message := "Onchain verification failed: " ++
              ((verifyOnchainEvent c8Env.registry c8Env.chain c8Md).reason.getD "") } ∧
    (processEvent c8Env (initState [0]) 0 "deposit" c8Md none).1.entries =
      (initState [0]).entries ∧
    eventStatus (processEvent c8Env (initState [0]) 0 "deposit" c8Md none).1
      (initState [0]).nextId = some .failed :=
  c8_wrong_destination_rejected c8Env (initState [0]) 0 "deposit" c8Md
    depositRule
    { blockNumber := 7, sender := "0xme", toAddr := some "0xevil",
      gasUsed := 21000, status := 1 } "0xevil"
    (by decide) (by decide) (by decide) (by decide) (by decide) (by decide)
    (by decide) (by decide) (by decide) (by decide) (by decide)

/-! ## C9 — referral single-use -/

/-- Status of the referral row with the given id. -/
def referralStatus (s : SysState) (refId : Nat) : Option RefStatus :=
  (s.referrals.find? (fun r => r.id == refId)).map (fun r => r.status)

theorem find?_map_saveReferral (l : List ReferralRec) (refId : Nat)
    (a b : Int) :
    ((l.map (fun r => if r.id == refId then
        { r with status := .rewarded, rewardInviterXP := a,
                 rewardInviteeXP := b } else r)).find?
      (fun r => r.id == refId)) =
    (l.find? (fun r => r.id == refId)).map
      (fun r => { r with status := .rewarded, rewardInviterXP := a,
                         rewardInviteeXP := b }) := by
  induction l with
  | nil => rfl
  | cons x xs ih =>
    by_cases h : x.id = refId
    · have hb : (x.id == refId) = true := by simpa using h
      rw [List.map_cons, if_pos hb, List.find?_cons, List.find?_cons, hb]
      simp only [show (({ x with status := .rewarded, rewardInviterXP := a,
                                 rewardInviteeXP := b } :
        ReferralRec).id == refId) = true from hb]
      rfl
    · have hb : (x.id == refId) = false := by simpa using h
      rw [List.map_cons, if_neg (by simp [hb]), List.find?_cons,
        List.find?_cons, hb]
      dsimp only
      exact ih

/-- C9.  (1) Creating a referral for an invitee who already has one fails
with the distinct error `'User has already been referred'` and changes
nothing.  (2) A successful `distributeRewards` leaves the referral
`rewarded` and appends exactly one inviter entry of `deltaXP = a` and one
invitee entry of `deltaXP = b`; invoking `distributeRewards` again on the
same referral fails on the status guard (`rewarded ≠ verified`) and changes
nothing, so each side's balance increases exactly once. -/
theorem c9_referral_single_use (s s2 : SysState) (inviter invitee : Nat)
    (code : String) (refId : Nat) (a b a2 b2 : Int) :
    ((∃ r ∈ s.referrals, r.inviteeUserId = invitee) →
      createReferral s inviter invitee code =
        (s, .error "User has already been referred")) ∧
    (distributeRewards s refId a b = (s2, .ok ()) →
      referralStatus s2 refId = some .rewarded ∧
      distributeRewards s2 refId a2 b2 =
        (s2, .error "Referral must be verified before distributing rewards") ∧
      ∃ r ∈ s.referrals, r.id = refId ∧
        ∃ e1 e2 : LedgerEntry,
          s2.entries = s.entries ++ [e1, e2] ∧
          e1.userId = r.inviterUserId ∧ e1.deltaXP = a ∧
          e1.reason = "referral_reward_inviter" ∧
          e2.userId = r.inviteeUserId ∧ e2.deltaXP = b ∧
          e2.reason = "referral_reward_invitee") := by
  constructor
  · intro hdup
    have hany : (s.referrals.any (fun r => r.inviteeUserId == invitee)) = true := by
      rw [List.any_eq_true]
      obtain ⟨r, hr, hinv⟩ := hdup
      exact ⟨r, hr, by simpa using hinv⟩
    unfold createReferral
    rw [if_pos hany]
  · intro h
    unfold distributeRewards at h
    cases hf : s.referrals.find? (fun r => r.id == refId) with
    | none => rw [hf] at h; simp at h
    | some r =>
      rw [hf] at h
      dsimp only at h
      by_cases hst : r.status = RefStatus.verified
      · rw [if_neg (by simpa using hst)] at h
        cases h1 : addXP s r.inviterUserId a "referral_reward_inviter"
            "Referral reward for inviting user" none none with
        | mk s1 res1 =>
          rw [h1] at h
          cases res1 with
          | error m => simp at h
          | ok e1 =>
            dsimp only at h
            cases h2 : addXP s1 r.inviteeUserId b "referral_reward_invitee"
                "Referral reward for joining" none none with
            | mk sB res2 =>
              rw [h2] at h
              cases res2 with
              | error m => simp at h
              | ok e2 =>
                dsimp only at h
                obtain ⟨hs2, -⟩ := Prod.mk.injEq .. ▸ h
                obtain ⟨xp1, hu1, hp1, -, he1, hs1⟩ := addXP_ok_spec h1
                obtain ⟨xp2, hu2, hp2, -, he2, hsB⟩ := addXP_ok_spec h2
                have hrefs1 : s1.referrals = s.referrals := by
                  rw [hs1]; rfl
                have hrefsB : sB.referrals = s.referrals := by
                  rw [hsB, hrefs1]; rfl
                have hent1 : s1.entries = s.entries ++ [e1] := by
                  rw [hs1]; rfl
                have hentB : sB.entries = s1.entries ++ [e2] := by
                  rw [hsB]; rfl
                have hfind2 : s2.referrals.find? (fun r => r.id == refId) =
                    some { r with
                           status := .rewarded, rewardInviterXP := a,
                           rewardInviteeXP := b } := by
                  rw [← hs2]
                  show ((sB.referrals.map _).find? _) = _
                  rw [hrefsB, find?_map_saveReferral, hf]
                  rfl
                refine ⟨?_, ?_, ?_⟩
                · unfold referralStatus
                  rw [hfind2]
                  rfl
                · unfold distributeRewards
                  rw [hfind2]
                  dsimp only
                  rw [if_pos (by decide)]
                · refine ⟨r, List.mem_of_find?_eq_some hf,
                    by simpa using List.find?_some hf, e1, e2, ?_,
                    by rw [he1], by rw [he1], by rw [he1],
                    by rw [he2], by rw [he2], by rw [he2]⟩
                  rw [← hs2]
                  show sB.entries = _
                  rw [hentB, hent1, List.append_assoc]
                  rfl
      · rw [if_pos (by simpa using hst)] at h
        simp at h

/-- Referral fixture for the C9 witness: a verified referral (id 5) of
invitee 2 by inviter 1, both users at balance 0. -/
def c9State : SysState :=
  { initState [1, 2] with
    referrals := [{ id := 5, inviterUserId := 1, inviteeUserId := 2,
                    referralCode := "NUV-ABCDEF", status := .verified }],
    nextId := 6 }

/-- C9 witness: creating a second referral for invitee 2 fails; after one
successful reward distribution the referral is `rewarded` and a second
distribution fails with the status-guard error and changes nothing. -/
theorem c9_referral_single_use_witness :
    createReferral c9State 3 2 "NUV-XYZXYZ" =
      (c9State, .error "User has already been referred") ∧
    referralStatus (distributeRewards c9State 5 500 100).1 5 =
      some .rewarded ∧
    distributeRewards (distributeRewards c9State 5 500 100).1 5 500 100 =
      ((distributeRewards c9State 5 500 100).1,
        .error "Referral must be verified before distributing rewards") :=
  have hmain := c9_referral_single_use c9State
    (distributeRewards c9State 5 500 100).1 3 2 "NUV-XYZXYZ" 5 500 100 500 100
  ⟨hmain.1 (by decide), (hmain.2 rfl).1, (hmain.2 rfl).2.1⟩

end Nuvia
